import Mathlib

/-!
Shallow embedding of the task registry and execution manager in
src/api/task_manager_v2.py.

Modelling conventions:
* Timestamps are natural numbers (seconds); the retention cutoff is
  computed as in the source (now minus TASK_TTL_HOURS hours).
* The disk store is a list of entries, one per JSON file: the file-name
  stem is the entry key, the file content is the task record, and the
  file modification time (used by get_all_tasks for ordering) is mtime.
* The diskcache is a list of key/record pairs keyed by task id; its
  time-based expiry is not modelled (no claim depends on it).
* Opaque payloads (params, ETL results, error strings) are strings;
  a missing value is none.
* The step function invoked by the worker is opaque: the worker takes
  its outcome (ok result or raised error) as a parameter.
* uuid4 generation is modelled by a list of candidate id strings; the
  retry loop takes the first candidate absent from the store, and the
  (probability-zero) case where every candidate collides is Option.none.
-/

/-- The five status strings of class TaskStatus. -/
inductive TaskStatus where
  | pending
  | running
  | completed
  | failed
  | cancelled
deriving DecidableEq, Repr

/-- The literal string value of each status, as in class TaskStatus. -/
def TaskStatus.str : TaskStatus → String
  | .pending => "pending"
  | .running => "running"
  | .completed => "completed"
  | .failed => "failed"
  | .cancelled => "cancelled"

/-- A task record, as built by create_task_record. -/
structure TaskRecord where
  task_id : String
  step_name : String
  status : TaskStatus
  created_at : Nat
  started_at : Option Nat
  completed_at : Option Nat
  params : String
  result : Option String
  error : Option String
  pid : Option Nat
  thread_id : Option Nat
deriving DecidableEq, Repr

/-- One JSON file in TASK_STORAGE_DIR: file-name stem, content, mtime. -/
structure DiskEntry where
  key : String
  record : TaskRecord
  mtime : Nat
deriving DecidableEq, Repr

/-- Combined persistent state: the JSON files on disk and the diskcache. -/
structure SysState where
  disk : List DiskEntry
  cache : List (String × TaskRecord)
deriving DecidableEq, Repr

def TASK_TTL_HOURS : Nat := 24

def MAX_CONCURRENT_TASKS : Nat := 25

/-- The keys of the etl_map dictionary (the registered step table).
The source dict literal lists the key "aggregate" twice; a Python dict
keeps a single entry for it. -/
def etl_map_keys : List String :=
  ["reading_config_comp", "read_src_comp", "read_tgt_comp",
   "pre_harmonisation_src_comp", "harmonisation_src_comp",
   "enrichment_file_search_src_comp", "enrichment_src_comp",
   "data_transform_src_comp", "pre_harmonisation_tgt_comp",
   "harmonisation_tgt_comp", "enrichment_file_search_tgt_comp",
   "enrichment_tgt_comp", "data_transform_tgt_comp", "combine_data_comp",
   "apply_rules_comp", "output_rules_comp", "break_rolling_comp",
   "extract", "transform", "load", "validate", "enrich", "aggregate",
   "read_csv", "read_parquet", "read_excel", "convert_parquet",
   "filter", "join", "output"]

/-- create_task_record: the fresh PENDING record. -/
def create_task_record (task_id step_name params : String) (now : Nat) :
    TaskRecord :=
  { task_id := task_id
    step_name := step_name
    status := .pending
    created_at := now
    started_at := none
    completed_at := none
    params := params
    result := none
    error := none
    pid := none
    thread_id := none }

/-- load_task_from_disk: read the JSON file named by the task id. -/
def load_task_from_disk (task_id : String) (disk : List DiskEntry) :
    Option TaskRecord :=
  (disk.find? (fun e => e.key == task_id)).map (fun e => e.record)

/-- save_task_to_disk: write (create or overwrite) the JSON file named by
the task id; the write updates the file modification time. -/
def save_task_to_disk (task_id : String) (rec : TaskRecord) (now : Nat) :
    List DiskEntry → List DiskEntry
  | [] => [⟨task_id, rec, now⟩]
  | e :: es =>
      if e.key == task_id then ⟨task_id, rec, now⟩ :: es
      else e :: save_task_to_disk task_id rec now es

/-- cache.get on the diskcache, keyed by task id. -/
def cacheGet (task_id : String) (c : List (String × TaskRecord)) :
    Option TaskRecord :=
  (c.find? (fun p => p.1 == task_id)).map (fun p => p.2)

/-- cache.set on the diskcache, keyed by task id. -/
def cacheSet (task_id : String) (rec : TaskRecord) :
    List (String × TaskRecord) → List (String × TaskRecord)
  | [] => [(task_id, rec)]
  | p :: ps =>
      if p.1 == task_id then (task_id, rec) :: ps
      else p :: cacheSet task_id rec ps

/-- cache.delete on the diskcache, keyed by task id. -/
def cacheDel (task_id : String) (c : List (String × TaskRecord)) :
    List (String × TaskRecord) :=
  c.filter (fun p => p.1 != task_id)

/-- save_task_to_disk followed by cache.set, the persistence pair that
every mutation in the source performs. -/
def persist (task_id : String) (rec : TaskRecord) (now : Nat)
    (s : SysState) : SysState :=
  { disk := save_task_to_disk task_id rec now s.disk
    cache := cacheSet task_id rec s.cache }

/-- get_running_tasks_count: scan all JSON files, count RUNNING. -/
def get_running_tasks_count (disk : List DiskEntry) : Nat :=
  (disk.filter (fun e => e.record.status == .running)).length

/-- The uuid retry loop of run_etl_task: take candidates in order until
one names no existing file. -/
def pickFresh (candidates : List String) (disk : List DiskEntry) :
    Option String :=
  candidates.find? (fun c => (load_task_from_disk c disk).isNone)

/-- Outcome of run_etl_task: the capacity exception (state untouched),
or a started task id with the updated state. -/
inductive SubmitOutcome where
  | capacityExceeded (s : SysState)
  | started (task_id : String) (s : SysState)
deriving DecidableEq, Repr

/-- run_etl_task: capacity check, id generation with collision retry,
record creation, persistence.  The worker thread it spawns runs later
(etl_worker_thread below); none models the unterminating retry loop in
which every candidate id collides. -/
def run_etl_task (step_name params : String) (candidates : List String)
    (now : Nat) (s : SysState) : Option SubmitOutcome :=
  if MAX_CONCURRENT_TASKS ≤ get_running_tasks_count s.disk then
    some (.capacityExceeded s)
  else
    match pickFresh candidates s.disk with
    | none => none
    | some task_id =>
        let r := create_task_record task_id step_name params now
        some (.started task_id (persist task_id r now s))

/-- The first locked block of etl_worker_thread: load the record, give up
if absent, else mark it RUNNING with started_at and worker ids. -/
def worker_start (task_id : String) (thread_id pid now : Nat)
    (s : SysState) : SysState :=
  match load_task_from_disk task_id s.disk with
  | none => s
  | some t =>
      persist task_id
        { t with status := .running, started_at := some now,
                 thread_id := some thread_id, pid := some pid } now s

/-- The completion block of etl_worker_thread: load the record and, if it
still exists (the only check made), overwrite it as COMPLETED. -/
def worker_finish_ok (task_id : String) (result : Option String)
    (now : Nat) (s : SysState) : SysState :=
  match load_task_from_disk task_id s.disk with
  | none => s
  | some t =>
      persist task_id
        { t with status := .completed, completed_at := some now,
                 result := result, error := none } now s

/-- The exception handler of etl_worker_thread: load the record and, if it
still exists (the only check made), overwrite it as FAILED. -/
def worker_finish_err (task_id : String) (errmsg : String) (now : Nat)
    (s : SysState) : SysState :=
  match load_task_from_disk task_id s.disk with
  | none => s
  | some t =>
      persist task_id
        { t with status := .failed, completed_at := some now,
                 result := none, error := some errmsg } now s

/-- What the opaque ETL step function does when invoked. -/
inductive StepOutcome where
  | ok (result : Option String)
  | err (errmsg : String)
deriving DecidableEq, Repr

/-- etl_worker_thread end to end: mark RUNNING, then look the step up in
etl_map (an unknown step raises, landing in the FAILED handler), then run
the step and record its outcome. -/
def etl_worker_thread (task_id step_name : String) (outcome : StepOutcome)
    (thread_id pid now1 now2 : Nat) (s : SysState) : SysState :=
  match load_task_from_disk task_id s.disk with
  | none => s
  | some _ =>
      let s1 := worker_start task_id thread_id pid now1 s
      if etl_map_keys.contains step_name then
        match outcome with
        | .ok r => worker_finish_ok task_id r now2 s1
        | .err e => worker_finish_err task_id e now2 s1
      else
        worker_finish_err task_id ("Unknown ETL step: " ++ step_name)
          now2 s1

/-- The cache-first read shared by get_task_status and get_task_output. -/
def lookupTask (task_id : String) (s : SysState) : Option TaskRecord :=
  match cacheGet task_id s.cache with
  | some t => some t
  | none => load_task_from_disk task_id s.disk

/-- The dict returned by get_task_status for an existing record. -/
structure StatusView where
  status : TaskStatus
  output : Option String
  error : Option String
  step_name : String
  created_at : Nat
  started_at : Option Nat
  completed_at : Option Nat
deriving DecidableEq, Repr

/-- Result of get_task_status: the not_found dict or the full view. -/
inductive StatusResult where
  | notFound
  | view (v : StatusView)
deriving DecidableEq, Repr

/-- get_task_status: cache first then disk; output only when COMPLETED,
error only when FAILED. -/
def get_task_status (task_id : String) (s : SysState) : StatusResult :=
  match lookupTask task_id s with
  | none => .notFound
  | some t =>
      .view
        { status := t.status
          output := if t.status == .completed then t.result else none
          error := if t.status == .failed then t.error else none
          step_name := t.step_name
          created_at := t.created_at
          started_at := t.started_at
          completed_at := t.completed_at }

/-- Value returned by get_task_output: the raw result payload on the
COMPLETED branch, a message string on every other branch. -/
inductive OutputResult where
  | payload (r : Option String)
  | message (s : String)
deriving DecidableEq, Repr

/-- get_task_output: cache first then disk; branch on the status. -/
def get_task_output (task_id : String) (s : SysState) : OutputResult :=
  match lookupTask task_id s with
  | none => .message "Task not found"
  | some t =>
      if t.status == .running then .message "Task still running"
      else if t.status == .completed then .payload t.result
      else if t.status == .failed then
        .message ("Task failed: " ++ (t.error.getD "None"))
      else .message ("Task status: " ++ t.status.str)

/-- The dict returned by stop_task. -/
structure StopResult where
  status : String
  task_id : String
deriving DecidableEq, Repr

/-- stop_task: cancel only a RUNNING record; every other existing record
is left untouched and reported not_running. -/
def stop_task (task_id : String) (now : Nat) (s : SysState) :
    StopResult × SysState :=
  match load_task_from_disk task_id s.disk with
  | none => (⟨"not_found", task_id⟩, s)
  | some t =>
      if t.status == .running then
        let t1 := { t with status := .cancelled, completed_at := some now,
                           error := some "Task cancelled by user" }
        (⟨"cancelled", task_id⟩, persist task_id t1 now s)
      else
        (⟨"not_running", task_id⟩, s)

/-- Membership of a status in the terminal list tested by the cleanup. -/
def isTerminal (st : TaskStatus) : Bool :=
  st == .completed || st == .failed || st == .cancelled

/-- The per-file condition of cleanup_completed_tasks: old enough,
terminal, and with a truthy (non-empty) task_id field. -/
def shouldReap (cutoff : Nat) (e : DiskEntry) : Bool :=
  decide (e.record.created_at < cutoff) && isTerminal e.record.status &&
    e.record.task_id != ""

/-- cleanup_completed_tasks: compute the cutoff, delete every reapable
file and its cache entry, return the reaped ids and the new state. -/
def cleanup_completed_tasks (now : Nat) (s : SysState) :
    List String × SysState :=
  let cutoff := now - TASK_TTL_HOURS * 3600
  let reaped := (s.disk.filter (shouldReap cutoff)).map
    (fun e => e.record.task_id)
  (reaped,
   { disk := s.disk.filter (fun e => !shouldReap cutoff e)
     cache := reaped.foldl (fun c i => cacheDel i c) s.cache })

/-- The summary dict built by get_all_tasks (no params, no result). -/
structure TaskSummary where
  task_id : String
  step_name : String
  status : TaskStatus
  created_at : Nat
  completed_at : Option Nat
deriving DecidableEq, Repr

/-- The summary of one record. -/
def summarize (t : TaskRecord) : TaskSummary :=
  { task_id := t.task_id
    step_name := t.step_name
    status := t.status
    created_at := t.created_at
    completed_at := t.completed_at }

/-- Stable insertion step for sorting by file modification time,
descending: an element passes every strictly newer element and lands
before the first element not newer than it, so elements with equal
mtime keep their original relative order. -/
def insertByMtime (e : DiskEntry) : List DiskEntry → List DiskEntry
  | [] => [e]
  | x :: xs =>
      if e.mtime < x.mtime then x :: insertByMtime e xs
      else e :: x :: xs

/-- The stable most-recently-modified-first sort used by get_all_tasks
(the source sorts the files by st_mtime with reverse=True; a stable sort
by a fixed key is unique, so stable insertion sort models it exactly). -/
def sortByMtimeDesc (l : List DiskEntry) : List DiskEntry :=
  l.foldr insertByMtime []

/-- Model of get_all_tasks: files sorted most recently modified first,
truncated to the limit, each reduced to its summary. -/
def get_all_tasks (limit : Nat) (disk : List DiskEntry) :
    List TaskSummary :=
  ((sortByMtimeDesc disk).take limit).map (fun e => summarize e.record)

/-- A sequence of submissions: each request is a step name, a params
payload, a candidate-id list and a timestamp.  Returns the ids handed
out by the successful submissions and the final state. -/
def submitMany (reqs : List (String × String × List String × Nat))
    (s : SysState) : List String × SysState :=
  match reqs with
  | [] => ([], s)
  | (step, params, cands, now) :: rest =>
      match run_etl_task step params cands now s with
      | some (.started tid s1) =>
          (tid :: (submitMany rest s1).1, (submitMany rest s1).2)
      | some (.capacityExceeded s1) => submitMany rest s1
      | none => submitMany rest s

/-- Whether an id names a JSON file on disk. -/
def isKey (task_id : String) (disk : List DiskEntry) : Bool :=
  (load_task_from_disk task_id disk).isSome

/-- The output field of a status view, none on the not_found branch. -/
def viewOutput : StatusResult → Option String
  | .notFound => none
  | .view v => v.output

/-- A minimal task record used by concrete test states. -/
def mkRec (id : String) (st : TaskStatus) (created : Nat) : TaskRecord :=
  { task_id := id
    step_name := "extract"
    status := st
    created_at := created
    started_at := none
    completed_at := none
    params := "p"
    result := none
    error := none
    pid := none
    thread_id := none }

/-- A disk with n RUNNING records under distinct keys. -/
def manyRunning (n : Nat) : List DiskEntry :=
  (List.range n).map (fun i => ⟨toString i, mkRec (toString i) .running 0, 0⟩)

/- ------------------------------------------------------------------ -/
/- Shared lemmas about the store and cache primitives.                 -/
/- ------------------------------------------------------------------ -/

theorem load_save (id : String) (r : TaskRecord) (now : Nat)
    (d : List DiskEntry) :
    load_task_from_disk id (save_task_to_disk id r now d) = some r := by
  induction d with
  | nil => simp [save_task_to_disk, load_task_from_disk]
  | cons e es ih =>
      by_cases h : e.key == id
      · simp [save_task_to_disk, h, load_task_from_disk]
      · simpa [save_task_to_disk, h, load_task_from_disk] using ih

theorem load_save_other (id id2 : String) (r : TaskRecord) (now : Nat)
    (d : List DiskEntry) (hne : id ≠ id2) :
    load_task_from_disk id (save_task_to_disk id2 r now d) =
      load_task_from_disk id d := by
  have hbe : (id2 == id) = false := beq_eq_false_iff_ne.mpr (Ne.symm hne)
  induction d with
  | nil => simp [save_task_to_disk, load_task_from_disk, List.find?, hbe]
  | cons e es ih =>
      by_cases h : e.key == id2
      · have hek : e.key = id2 := by simpa using h
        simp [save_task_to_disk, h, load_task_from_disk, List.find?,
          hbe, hek]
      · by_cases h2 : e.key == id
        · simp [save_task_to_disk, h, load_task_from_disk, List.find?, h2]
        · simpa [save_task_to_disk, h, load_task_from_disk, List.find?,
            h2] using ih

theorem cacheGet_set (id : String) (r : TaskRecord)
    (c : List (String × TaskRecord)) :
    cacheGet id (cacheSet id r c) = some r := by
  induction c with
  | nil => simp [cacheSet, cacheGet]
  | cons p ps ih =>
      by_cases h : p.1 == id
      · simp [cacheSet, h, cacheGet]
      · simpa [cacheSet, h, cacheGet] using ih

theorem cacheGet_cons_ne (id : String) (p : String × TaskRecord)
    (c : List (String × TaskRecord)) (h : (p.1 == id) = false) :
    cacheGet id (p :: c) = cacheGet id c := by
  simp [cacheGet, List.find?, h]

theorem cacheGet_del_self (id : String) (c : List (String × TaskRecord)) :
    cacheGet id (cacheDel id c) = none := by
  induction c with
  | nil => rfl
  | cons p ps ih =>
      show cacheGet id (List.filter (fun q => q.1 != id) (p :: ps)) = none
      rw [List.filter_cons]
      by_cases h : p.1 = id
      · have hb : (p.1 != id) = false := by simp [h]
        rw [hb]
        simpa using ih
      · have hb : (p.1 != id) = true := by simp [h]
        have hbe : (p.1 == id) = false := beq_eq_false_iff_ne.mpr h
        rw [hb]
        simp only [if_pos trivial, ite_true]
        rw [cacheGet_cons_ne id p _ hbe]
        exact ih

theorem cacheGet_del_none (id j : String)
    (c : List (String × TaskRecord)) (h : cacheGet id c = none) :
    cacheGet id (cacheDel j c) = none := by
  induction c with
  | nil => rfl
  | cons p ps ih =>
      by_cases hpi : p.1 = id
      · simp [cacheGet, List.find?, hpi] at h
      · have hbe : (p.1 == id) = false := beq_eq_false_iff_ne.mpr hpi
        have hid : cacheGet id ps = none := by
          rw [cacheGet_cons_ne id p ps hbe] at h
          exact h
        show cacheGet id (List.filter (fun q => q.1 != j) (p :: ps)) = none
        rw [List.filter_cons]
        by_cases hj : p.1 = j
        · have hb : (p.1 != j) = false := by simp [hj]
          rw [hb]
          simpa using ih hid
        · have hb : (p.1 != j) = true := by simp [hj]
          rw [hb]
          simp only [ite_true]
          rw [cacheGet_cons_ne id p _ hbe]
          exact ih hid

theorem cacheGet_foldl_del_none (ids : List String) (i : String)
    (c : List (String × TaskRecord)) (h : cacheGet i c = none) :
    cacheGet i (ids.foldl (fun acc j => cacheDel j acc) c) = none := by
  induction ids generalizing c with
  | nil => simpa using h
  | cons j js ih =>
      exact ih (cacheDel j c) (cacheGet_del_none i j c h)

theorem cacheGet_foldl_del (ids : List String) (i : String)
    (c : List (String × TaskRecord)) (h : i ∈ ids) :
    cacheGet i (ids.foldl (fun acc j => cacheDel j acc) c) = none := by
  induction ids generalizing c with
  | nil => cases h
  | cons j js ih =>
      rcases List.mem_cons.mp h with h1 | h2
      · subst h1
        exact cacheGet_foldl_del_none js i (cacheDel i c)
          (cacheGet_del_self i c)
      · exact ih (c := cacheDel j c) h2

/- ------------------------------------------------------------------ -/
/- Claim C5.                                                           -/
/- ------------------------------------------------------------------ -/

/-- Claim C5: whenever the number of RUNNING records is at or above the
configured ceiling MAX_CONCURRENT_TASKS, run_etl_task fails with the
capacity exception and the state it carries back is the submission-time
state unchanged: no record was created on disk or in the cache. -/
theorem run_etl_task_capacity_exceeded (step params : String)
    (cands : List String) (now : Nat) (s : SysState)
    (h : MAX_CONCURRENT_TASKS ≤ get_running_tasks_count s.disk) :
    run_etl_task step params cands now s =
      some (.capacityExceeded s) := by
  simp [run_etl_task, h]

/-- Witness for C5: a store holding 25 RUNNING records rejects a new
submission and is left exactly as it was. -/
theorem run_etl_task_capacity_exceeded_witness :
    MAX_CONCURRENT_TASKS ≤ get_running_tasks_count (manyRunning 25) ∧
    run_etl_task "extract" "p" ["z"] 10 ⟨manyRunning 25, []⟩ =
      some (.capacityExceeded ⟨manyRunning 25, []⟩) :=
  ⟨by decide,
   run_etl_task_capacity_exceeded "extract" "p" ["z"] 10
     ⟨manyRunning 25, []⟩ (by decide)⟩

/- ------------------------------------------------------------------ -/
/- Claim C10.                                                          -/
/- ------------------------------------------------------------------ -/

/-- Claim C10: for an existing record whose status is not RUNNING,
stop_task returns the not_running outcome and the state — disk files
and cache, hence status, result, error and every timestamp — is
exactly the state it was called on. -/
theorem stop_task_non_running_frame (id : String) (now : Nat)
    (s : SysState) (t : TaskRecord)
    (h : load_task_from_disk id s.disk = some t)
    (hst : t.status ≠ .running) :
    stop_task id now s = (⟨"not_running", id⟩, s) := by
  have hb : (t.status == .running) = false := beq_eq_false_iff_ne.mpr hst
  simp [stop_task, h, hb]

/-- Witness for C10: cancelling a COMPLETED task changes nothing. -/
theorem stop_task_non_running_frame_witness :
    load_task_from_disk "a"
        (SysState.mk [⟨"a", mkRec "a" .completed 0, 0⟩]
          [("a", mkRec "a" .completed 0)]).disk =
      some (mkRec "a" .completed 0) ∧
    (mkRec "a" .completed 0).status ≠ .running ∧
    stop_task "a" 7
        ⟨[⟨"a", mkRec "a" .completed 0, 0⟩],
         [("a", mkRec "a" .completed 0)]⟩ =
      (⟨"not_running", "a"⟩,
       ⟨[⟨"a", mkRec "a" .completed 0, 0⟩],
        [("a", mkRec "a" .completed 0)]⟩) :=
  ⟨rfl, by decide,
   stop_task_non_running_frame "a" 7
     ⟨[⟨"a", mkRec "a" .completed 0, 0⟩],
      [("a", mkRec "a" .completed 0)]⟩
     (mkRec "a" .completed 0) rfl (by decide)⟩

/- ------------------------------------------------------------------ -/
/- Claim C1.                                                           -/
/- ------------------------------------------------------------------ -/

/-- A CANCELLED record with the fixed cancellation reason, persisted
on disk and in the cache: the state of a task cancelled mid-run. -/
def c1Rec : TaskRecord :=
  { mkRec "a" .cancelled 0 with completed_at := some 3,
                                error := some "Task cancelled by user" }

/-- The persisted state of a task cancelled while running. -/
def c1State : SysState := ⟨[⟨"a", c1Rec, 3⟩], [("a", c1Rec)]⟩

/-- Counterexample to C1: the worker's completion write checks only that
the record still exists, not that it is RUNNING, so a record already in
the terminal CANCELLED state is overwritten to COMPLETED by a late
natural completion — a second terminal transition on the same task. -/
theorem worker_overwrites_cancelled_counterexample :
    (load_task_from_disk "a" c1State.disk).map TaskRecord.status =
      some .cancelled ∧
    (load_task_from_disk "a"
        (worker_finish_ok "a" (some "res") 9 c1State).disk).map
        TaskRecord.status = some .completed ∧
    (cacheGet "a" (worker_finish_ok "a" (some "res") 9 c1State).cache).map
        TaskRecord.status = some .completed := by
  exact ⟨rfl, rfl, rfl⟩

/-- Claim C1 amended: a terminal record is immune to stop_task, but the
executor's final persist guards only on existence: worker_finish_ok
overwrites any existing record — terminal or not — to COMPLETED, and
worker_finish_err to FAILED, so a task cancelled while running is
clobbered by a late natural completion or failure. -/
theorem terminal_record_amended (id : String) (s : SysState)
    (t : TaskRecord) (h : load_task_from_disk id s.disk = some t)
    (hterm : isTerminal t.status = true) :
    (∀ now, stop_task id now s = (⟨"not_running", id⟩, s)) ∧
    (∀ r now, load_task_from_disk id (worker_finish_ok id r now s).disk =
       some { t with status := .completed, completed_at := some now,
                     result := r, error := none }) ∧
    (∀ e now, load_task_from_disk id (worker_finish_err id e now s).disk =
       some { t with status := .failed, completed_at := some now,
                     result := none, error := some e }) := by
  have hst : t.status ≠ .running := by
    intro hc
    rw [hc] at hterm
    exact absurd hterm (by decide)
  refine ⟨?_, ?_, ?_⟩
  · intro now
    have hb : (t.status == .running) = false := beq_eq_false_iff_ne.mpr hst
    simp [stop_task, h, hb]
  · intro r now
    simp [worker_finish_ok, h, persist, load_save]
  · intro e now
    simp [worker_finish_err, h, persist, load_save]

/-- Witness for C1 amended: applied to the cancelled record above. -/
theorem terminal_record_amended_witness :
    load_task_from_disk "a" c1State.disk = some c1Rec ∧
    isTerminal c1Rec.status = true ∧
    stop_task "a" 11 c1State = (⟨"not_running", "a"⟩, c1State) :=
  ⟨rfl, by decide,
   (terminal_record_amended "a" c1State c1Rec rfl (by decide)).1 11⟩

/- ------------------------------------------------------------------ -/
/- Claim C3.                                                           -/
/- ------------------------------------------------------------------ -/

/-- A store holding one PENDING task, on disk and in the cache. -/
def c3State : SysState :=
  ⟨[⟨"a", mkRec "a" .pending 0, 0⟩], [("a", mkRec "a" .pending 0)]⟩

/-- A store holding one RUNNING task, on disk and in the cache. -/
def c3RunState : SysState :=
  ⟨[⟨"a", mkRec "a" .running 0, 0⟩], [("a", mkRec "a" .running 0)]⟩

/-- Counterexample to C3: stop_task on an existing PENDING record does
not transition it to CANCELLED — it answers not_running and leaves the
record PENDING, though the claim says PENDING records are cancelled. -/
theorem stop_task_pending_counterexample :
    (load_task_from_disk "a" c3State.disk).map TaskRecord.status =
      some .pending ∧
    stop_task "a" 5 c3State = (⟨"not_running", "a"⟩, c3State) ∧
    (load_task_from_disk "a" (stop_task "a" 5 c3State).2.disk).map
        TaskRecord.status = some .pending :=
  ⟨rfl, rfl, rfl⟩

/-- Claim C3 amended: stop_task cancels only a RUNNING record, writing
completed_at and the fixed reason and answering cancelled; for every
other existing record — PENDING as well as terminal — it answers
not_running (never an error) and changes nothing, so the second of two
cancels answers not_running, not the first call's cancelled status. -/
theorem stop_task_amended (id : String) (n1 n2 : Nat) (s : SysState)
    (t : TaskRecord) (h : load_task_from_disk id s.disk = some t) :
    (t.status = .running →
       stop_task id n1 s = (⟨"cancelled", id⟩,
         persist id { t with status := .cancelled,
                             completed_at := some n1,
                             error := some "Task cancelled by user" }
           n1 s) ∧
       stop_task id n2 (stop_task id n1 s).2 =
         (⟨"not_running", id⟩, (stop_task id n1 s).2)) ∧
    (t.status ≠ .running →
       stop_task id n1 s = (⟨"not_running", id⟩, s)) := by
  constructor
  · intro hr
    have hb : (t.status == .running) = true := by rw [hr]; rfl
    have h1 : stop_task id n1 s = (⟨"cancelled", id⟩,
        persist id { t with status := .cancelled,
                            completed_at := some n1,
                            error := some "Task cancelled by user" }
          n1 s) := by
      simp [stop_task, h, hb]
    refine ⟨h1, ?_⟩
    rw [h1]
    have hl : load_task_from_disk id
        (persist id { t with status := .cancelled,
                             completed_at := some n1,
                             error := some "Task cancelled by user" }
          n1 s).disk =
        some { t with status := .cancelled, completed_at := some n1,
                      error := some "Task cancelled by user" } := by
      simpa [persist] using
        load_save id _ n1 s.disk
    simp [stop_task, hl]
  · intro hne
    have hb : (t.status == .running) = false := beq_eq_false_iff_ne.mpr hne
    simp [stop_task, h, hb]

/-- Witness for C3 amended: a RUNNING task is cancelled; cancelling it
again answers not_running. -/
theorem stop_task_amended_witness :
    (stop_task "a" 5 c3RunState).1 = ⟨"cancelled", "a"⟩ ∧
    (stop_task "a" 9 (stop_task "a" 5 c3RunState).2).1 =
      ⟨"not_running", "a"⟩ := by
  have H := (stop_task_amended "a" 5 9 c3RunState
    (mkRec "a" .running 0) rfl).1 rfl
  exact ⟨by rw [H.1], by rw [H.2]⟩

/- ------------------------------------------------------------------ -/
/- Claim C4.                                                           -/
/- ------------------------------------------------------------------ -/

/-- A store holding one PENDING task on disk only. -/
def c4State : SysState := ⟨[⟨"a", mkRec "a" .pending 0, 0⟩], []⟩

/-- Counterexample to C4: get_task_output on a PENDING record returns
the generic fallback message, not the still-running sentinel the claim
promises for PENDING and RUNNING alike. -/
theorem get_task_output_pending_counterexample :
    (load_task_from_disk "a" c4State.disk).map TaskRecord.status =
      some .pending ∧
    get_task_output "a" c4State = .message "Task status: pending" ∧
    OutputResult.message "Task status: pending" ≠
      OutputResult.message "Task still running" :=
  ⟨rfl, rfl, by decide⟩

/-- Claim C4 amended: get_task_output returns the still-running sentinel
only for a RUNNING record; a PENDING record gets the generic fallback
message built from its status — a non-error sentinel, but a different
one — and the record persisted by run_etl_task is PENDING, so output
immediately after submit returns that fallback message, never an
error. -/
theorem get_task_output_amended (id step params : String)
    (cands : List String) (now : Nat) (s s1 : SysState) (t : TaskRecord) :
    (lookupTask id s = some t →
       (t.status = .running →
          get_task_output id s = .message "Task still running") ∧
       (t.status = .pending →
          get_task_output id s = .message "Task status: pending")) ∧
    (run_etl_task step params cands now s = some (.started id s1) →
       get_task_output id s1 = .message "Task status: pending") := by
  constructor
  · intro h
    constructor
    · intro hst
      have hb : (t.status == .running) = true := by rw [hst]; rfl
      simp [get_task_output, h, hb]
    · intro hst
      simp [get_task_output, h, hst, TaskStatus.str]
  · intro hrun
    by_cases hcap : MAX_CONCURRENT_TASKS ≤ get_running_tasks_count s.disk
    · simp [run_etl_task, hcap] at hrun
    · cases hpf : pickFresh cands s.disk with
      | none => simp [run_etl_task, hcap, hpf] at hrun
      | some tid =>
          simp [run_etl_task, hcap, hpf] at hrun
          obtain ⟨hid, hs1⟩ := hrun
          subst hid
          have hlook : lookupTask tid s1 =
              some (create_task_record tid step params now) := by
            rw [← hs1]
            simp [lookupTask, persist, cacheGet_set]
          simp [get_task_output, hlook, create_task_record,
            TaskStatus.str]

/-- A second store with one PENDING task, on disk and in the cache. -/
def c4State2 : SysState :=
  ⟨[⟨"b", mkRec "b" .pending 0, 0⟩], [("b", mkRec "b" .pending 0)]⟩

/-- Witness for C4 amended: a RUNNING record yields the still-running
sentinel; submitting into an empty store and reading output at once
yields the PENDING fallback message. -/
theorem get_task_output_amended_witness :
    get_task_output "a" c3RunState = .message "Task still running" ∧
    get_task_output "b" c4State2 = .message "Task status: pending" ∧
    get_task_output "c"
        ⟨[⟨"c", create_task_record "c" "extract" "p" 0, 0⟩],
         [("c", create_task_record "c" "extract" "p" 0)]⟩ =
      .message "Task status: pending" :=
  ⟨((get_task_output_amended "a" "x" "x" [] 0 c3RunState c3RunState
      (mkRec "a" .running 0)).1 rfl).1 rfl,
   ((get_task_output_amended "b" "x" "x" [] 0 c4State2 c4State2
      (mkRec "b" .pending 0)).1 rfl).2 rfl,
   (get_task_output_amended "c" "extract" "p" ["c"] 0 ⟨[], []⟩
      ⟨[⟨"c", create_task_record "c" "extract" "p" 0, 0⟩],
       [("c", create_task_record "c" "extract" "p" 0)]⟩
      (mkRec "c" .pending 0)).2 rfl⟩

/- ------------------------------------------------------------------ -/
/- Claim C8.                                                           -/
/- ------------------------------------------------------------------ -/

/-- A COMPLETED record whose result payload was set by the worker. -/
def c8Rec : TaskRecord :=
  { mkRec "a" .completed 0 with result := some "r",
                                completed_at := some 2 }

/-- A store holding the completed record on disk only. -/
def c8State : SysState := ⟨[⟨"a", c8Rec, 2⟩], []⟩

/-- The view get_task_status builds for that record. -/
def c8View : StatusView :=
  { status := .completed
    output := some "r"
    error := none
    step_name := "extract"
    created_at := 0
    started_at := none
    completed_at := some 2 }

/-- Counterexample to C8: for a COMPLETED record the status view does
contain the result payload (in its output field), though the claim says
the view never contains the result. -/
theorem get_task_status_result_counterexample :
    (load_task_from_disk "a" c8State.disk).map TaskRecord.status =
      some .completed ∧
    c8Rec.result = some "r" ∧
    viewOutput (get_task_status "a" c8State) = some "r" :=
  ⟨rfl, rfl, rfl⟩

/-- Claim C8 amended: get_task_status answers notFound when neither the
cache nor the disk holds the record; on an existing record the view
mirrors the status, carries the error exactly when the status is FAILED
— but it also carries the full result payload exactly when the status
is COMPLETED, rather than never. -/
theorem get_task_status_amended (id : String) (s : SysState) :
    (lookupTask id s = none → get_task_status id s = .notFound) ∧
    (∀ t v, lookupTask id s = some t → get_task_status id s = .view v →
       v.status = t.status ∧
       (t.status = .failed → v.error = t.error) ∧
       (t.status ≠ .failed → v.error = none) ∧
       (t.status = .completed → v.output = t.result) ∧
       (t.status ≠ .completed → v.output = none)) := by
  constructor
  · intro h
    simp [get_task_status, h]
  · intro t v ht hv
    simp [get_task_status, ht] at hv
    refine ⟨?_, ?_, ?_, ?_, ?_⟩
    · rw [← hv]
    · intro hf
      rw [← hv]
      simp [hf]
    · intro hf
      rw [← hv]
      exact if_neg hf
    · intro hc
      rw [← hv]
      simp [hc]
    · intro hc
      rw [← hv]
      exact if_neg hc

/-- Witness for C8 amended: an unknown id answers notFound, and the
completed record's view output equals its result payload. -/
theorem get_task_status_amended_witness :
    get_task_status "z" ⟨[], []⟩ = .notFound ∧
    c8View.output = c8Rec.result :=
  ⟨(get_task_status_amended "z" ⟨[], []⟩).1 rfl,
   ((get_task_status_amended "a" c8State).2 c8Rec c8View rfl
     rfl).2.2.2.1 rfl⟩

/- ------------------------------------------------------------------ -/
/- Claim C2.                                                           -/
/- ------------------------------------------------------------------ -/

/-- Counterexample to C2: run_etl_task performs no step-name check, so a
submission whose step is not in the registered table succeeds and
persists a PENDING record to disk and cache — the claim says it is
rejected synchronously before any record is created. -/
theorem unknown_step_counterexample :
    etl_map_keys.contains "bogus" = false ∧
    run_etl_task "bogus" "p" ["a"] 0 ⟨[], []⟩ =
      some (.started "a"
        ⟨[⟨"a", create_task_record "a" "bogus" "p" 0, 0⟩],
         [("a", create_task_record "a" "bogus" "p" 0)]⟩) ∧
    (load_task_from_disk "a"
        [⟨"a", create_task_record "a" "bogus" "p" 0, 0⟩]).map
        TaskRecord.status = some .pending :=
  ⟨by decide, rfl, rfl⟩

/-- Claim C2 amended: a submission whose step_name is not registered is
accepted by run_etl_task, which persists a PENDING record and returns
its id; the unknown-step check runs inside the worker after the record
is marked RUNNING, and the raised error lands the task in FAILED with
the unknown-step message — no synchronous rejection, one record
created. -/
theorem unknown_step_amended (step params : String)
    (cands : List String) (tid : String) (tno pid n0 n1 n2 : Nat)
    (s : SysState) (outcome : StepOutcome)
    (hcap : get_running_tasks_count s.disk < MAX_CONCURRENT_TASKS)
    (hfresh : pickFresh cands s.disk = some tid)
    (hstep : etl_map_keys.contains step = false) :
    run_etl_task step params cands n0 s =
      some (.started tid
        (persist tid (create_task_record tid step params n0) n0 s)) ∧
    (create_task_record tid step params n0).status = .pending ∧
    load_task_from_disk tid
        (etl_worker_thread tid step outcome tno pid n1 n2
          (persist tid (create_task_record tid step params n0) n0
            s)).disk =
      some { create_task_record tid step params n0 with
             status := .failed, started_at := some n1,
             thread_id := some tno, pid := some pid,
             completed_at := some n2, result := none,
             error := some ("Unknown ETL step: " ++ step) } := by
  have hncap : ¬ MAX_CONCURRENT_TASKS ≤ get_running_tasks_count s.disk :=
    Nat.not_le.mpr hcap
  have hmem : step ∉ etl_map_keys := by simpa using hstep
  refine ⟨?_, rfl, ?_⟩
  · simp [run_etl_task, hncap, hfresh]
  · simp [etl_worker_thread, worker_start, worker_finish_err, persist,
      load_save, hmem, create_task_record]

/-- Witness for C2 amended: submitting the unregistered step bogus into
an empty store and running its worker leaves one record, FAILED. -/
theorem unknown_step_amended_witness :
    get_running_tasks_count (SysState.mk [] []).disk <
      MAX_CONCURRENT_TASKS ∧
    etl_map_keys.contains "bogus" = false ∧
    (load_task_from_disk "a"
        (etl_worker_thread "a" "bogus" (.ok (some "x")) 1 2 3 4
          (persist "a" (create_task_record "a" "bogus" "p" 0) 0
            ⟨[], []⟩)).disk).map TaskRecord.status = some .failed := by
  refine ⟨by decide, by decide, ?_⟩
  have H := (unknown_step_amended "bogus" "p" ["a"] "a" 1 2 0 3 4
    ⟨[], []⟩ (.ok (some "x")) (by decide) rfl (by decide)).2.2
  rw [H]
  rfl

/- ------------------------------------------------------------------ -/
/- Claim C6.                                                           -/
/- ------------------------------------------------------------------ -/

/-- Claim C6: the sweep deletes exactly the records that are terminal
and older than the retention window.  Every record the system creates
carries its non-empty uuid in task_id, which the hypothesis reflects
(the source also skips a record whose task_id field is falsy).  Every
old terminal record leaves both disk and cache; every other record —
newer terminal ones, and PENDING or RUNNING ones of any age — stays. -/
theorem cleanup_completed_tasks_exact (now : Nat) (s : SysState)
    (hid : ∀ e ∈ s.disk, e.record.task_id ≠ "") :
    (∀ e ∈ s.disk,
       isTerminal e.record.status = true ∧
         e.record.created_at < now - TASK_TTL_HOURS * 3600 →
       e ∉ (cleanup_completed_tasks now s).2.disk ∧
         cacheGet e.record.task_id
           (cleanup_completed_tasks now s).2.cache = none) ∧
    (∀ e ∈ s.disk,
       ¬(isTerminal e.record.status = true ∧
          e.record.created_at < now - TASK_TTL_HOURS * 3600) →
       e ∈ (cleanup_completed_tasks now s).2.disk) ∧
    (∀ e ∈ s.disk,
       e.record.status = .pending ∨ e.record.status = .running →
       e ∈ (cleanup_completed_tasks now s).2.disk) := by
  have hkeep : ∀ e ∈ s.disk,
      shouldReap (now - TASK_TTL_HOURS * 3600) e = false →
      e ∈ (cleanup_completed_tasks now s).2.disk := by
    intro e he hsr
    simp only [cleanup_completed_tasks]
    exact List.mem_filter.mpr ⟨he, by simp [hsr]⟩
  refine ⟨?_, ?_, ?_⟩
  · intro e he hpair
    have h3 : (e.record.task_id != "") = true := bne_iff_ne.mpr (hid e he)
    have hsr : shouldReap (now - TASK_TTL_HOURS * 3600) e = true := by
      simp [shouldReap, hpair.1, hpair.2, h3]
    constructor
    · intro hmem
      have hmem2 : e ∈ s.disk.filter
          (fun x => !shouldReap (now - TASK_TTL_HOURS * 3600) x) := by
        simpa [cleanup_completed_tasks] using hmem
      have := (List.mem_filter.mp hmem2).2
      rw [hsr] at this
      exact absurd this (by decide)
    · have hmemr : e.record.task_id ∈
          (s.disk.filter (shouldReap (now - TASK_TTL_HOURS * 3600))).map
            (fun x => x.record.task_id) :=
        List.mem_map.mpr ⟨e, List.mem_filter.mpr ⟨he, hsr⟩, rfl⟩
      simpa [cleanup_completed_tasks] using
        cacheGet_foldl_del _ e.record.task_id s.cache hmemr
  · intro e he hn
    apply hkeep e he
    cases hB : shouldReap (now - TASK_TTL_HOURS * 3600) e
    · rfl
    · exfalso
      have := hB
      simp [shouldReap] at this
      exact hn ⟨this.1.2, this.1.1⟩
  · intro e he hpr
    apply hkeep e he
    have hterm : isTerminal e.record.status = false := by
      rcases hpr with h | h <;> simp [isTerminal, h]
    simp [shouldReap, hterm]

/-- An old terminal record, a recent terminal record and an old RUNNING
record, with the old terminal one also cached. -/
def eOldDone : DiskEntry :=
  ⟨"old", { mkRec "old" .completed 0 with completed_at := some 1 }, 1⟩

/-- A terminal record created inside the retention window. -/
def eNewDone : DiskEntry :=
  ⟨"new",
   { mkRec "new" .completed 150000 with completed_at := some 150001 },
   150001⟩

/-- A RUNNING record far older than the retention window. -/
def eOldRun : DiskEntry := ⟨"run", mkRec "run" .running 0, 0⟩

/-- The store the cleanup witness sweeps at time 200000 (the cutoff is
then 113600). -/
def cleanState : SysState :=
  ⟨[eOldDone, eNewDone, eOldRun],
   [("old", eOldDone.record), ("new", eNewDone.record)]⟩

/-- Witness for C6: at time 200000 the sweep removes the old completed
record from disk and cache, and keeps both the recent completed record
and the old running one. -/
theorem cleanup_completed_tasks_exact_witness :
    (eOldDone ∉ (cleanup_completed_tasks 200000 cleanState).2.disk ∧
     cacheGet eOldDone.record.task_id
       (cleanup_completed_tasks 200000 cleanState).2.cache = none) ∧
    eNewDone ∈ (cleanup_completed_tasks 200000 cleanState).2.disk ∧
    eOldRun ∈ (cleanup_completed_tasks 200000 cleanState).2.disk :=
  ⟨(cleanup_completed_tasks_exact 200000 cleanState (by decide)).1
     eOldDone (by decide) ⟨by decide, by decide⟩,
   (cleanup_completed_tasks_exact 200000 cleanState (by decide)).2.1
     eNewDone (by decide) (by decide),
   (cleanup_completed_tasks_exact 200000 cleanState (by decide)).2.2
     eOldRun (by decide) (Or.inr rfl)⟩

/- ------------------------------------------------------------------ -/
/- Claim C9.                                                           -/
/- ------------------------------------------------------------------ -/

theorem mem_insertByMtime (e y : DiskEntry) (l : List DiskEntry) :
    y ∈ insertByMtime e l ↔ y = e ∨ y ∈ l := by
  induction l with
  | nil => simp [insertByMtime]
  | cons x xs ih =>
      by_cases h : e.mtime < x.mtime
      · simp [insertByMtime, h, ih]
        tauto
      · simp [insertByMtime, h, List.mem_cons]

theorem pairwise_insertByMtime (e : DiskEntry) (l : List DiskEntry)
    (h : l.Pairwise (fun a b => b.mtime ≤ a.mtime)) :
    (insertByMtime e l).Pairwise (fun a b => b.mtime ≤ a.mtime) := by
  induction l with
  | nil => simp [insertByMtime]
  | cons x xs ih =>
      rw [List.pairwise_cons] at h
      obtain ⟨hx, hxs⟩ := h
      by_cases hc : e.mtime < x.mtime
      · simp only [insertByMtime, if_pos hc]
        rw [List.pairwise_cons]
        constructor
        · intro y hy
          rcases (mem_insertByMtime e y xs).mp hy with rfl | hmem
          · exact Nat.le_of_lt hc
          · exact hx y hmem
        · exact ih hxs
      · simp only [insertByMtime, if_neg hc]
        rw [List.pairwise_cons]
        constructor
        · intro y hy
          rcases List.mem_cons.mp hy with rfl | hmem
          · exact Nat.le_of_not_lt hc
          · exact Nat.le_trans (hx y hmem) (Nat.le_of_not_lt hc)
        · exact List.pairwise_cons.mpr ⟨hx, hxs⟩

theorem pairwise_sortByMtimeDesc (l : List DiskEntry) :
    (sortByMtimeDesc l).Pairwise (fun a b => b.mtime ≤ a.mtime) := by
  induction l with
  | nil => simp [sortByMtimeDesc]
  | cons x xs ih => exact pairwise_insertByMtime x _ ih

theorem mem_sortByMtimeDesc (y : DiskEntry) (l : List DiskEntry) :
    y ∈ sortByMtimeDesc l ↔ y ∈ l := by
  induction l with
  | nil => simp [sortByMtimeDesc]
  | cons x xs ih =>
      show y ∈ insertByMtime x (sortByMtimeDesc xs) ↔ _
      rw [mem_insertByMtime]
      simp [ih, List.mem_cons]

/-- A completed task created early whose file was rewritten late. -/
def entA : DiskEntry := ⟨"a", mkRec "a" .completed 1, 10⟩

/-- A pending task created later whose file was not touched since. -/
def entB : DiskEntry := ⟨"b", mkRec "b" .pending 5, 6⟩

/-- Counterexample to C9: get_all_tasks orders by file modification
time, so a record created earlier but modified later (entA) is listed
before a record created more recently (entB) — the first summary's
created_at is older than the second's, violating
most-recently-created-first. -/
theorem get_all_tasks_order_counterexample :
    get_all_tasks 10 [entA, entB] =
      [summarize entA.record, summarize entB.record] ∧
    (summarize entA.record).created_at <
      (summarize entB.record).created_at :=
  ⟨rfl, by decide⟩

/-- Claim C9 amended: get_all_tasks returns at most limit summaries,
namely the first limit entries of the store sorted by file modification
time descending (most recently modified first, not most recently
created), each summary drawn from a store record and carrying only the
id, step name, status and the created/completed timestamps — no params
and no result. -/
theorem get_all_tasks_amended (limit : Nat) (disk : List DiskEntry) :
    (get_all_tasks limit disk).length ≤ limit ∧
    get_all_tasks limit disk =
      ((sortByMtimeDesc disk).take limit).map
        (fun e => summarize e.record) ∧
    ((sortByMtimeDesc disk).take limit).Pairwise
      (fun a b => b.mtime ≤ a.mtime) ∧
    (∀ x ∈ get_all_tasks limit disk, ∃ e ∈ disk,
       x = summarize e.record) := by
  refine ⟨?_, rfl, ?_, ?_⟩
  · rw [get_all_tasks, List.length_map, List.length_take]
    exact Nat.min_le_left _ _
  · exact List.Pairwise.sublist (List.take_sublist limit _)
      (pairwise_sortByMtimeDesc disk)
  · intro x hx
    rw [get_all_tasks] at hx
    obtain ⟨e, he, rfl⟩ := List.mem_map.mp hx
    exact ⟨e, (mem_sortByMtimeDesc e disk).mp (List.mem_of_mem_take he),
      rfl⟩

/-- Witness for C9 amended: with limit 1 over the two-entry store the
result has one summary and the truncated sorted list is ordered. -/
theorem get_all_tasks_amended_witness :
    (get_all_tasks 1 [entA, entB]).length ≤ 1 ∧
    ((sortByMtimeDesc [entA, entB]).take 1).Pairwise
      (fun a b => b.mtime ≤ a.mtime) :=
  ⟨(get_all_tasks_amended 1 [entA, entB]).1,
   (get_all_tasks_amended 1 [entA, entB]).2.2.1⟩

/- ------------------------------------------------------------------ -/
/- Claim C7.                                                           -/
/- ------------------------------------------------------------------ -/

theorem pickFresh_load_none (cands : List String)
    (disk : List DiskEntry) (tid : String)
    (h : pickFresh cands disk = some tid) :
    load_task_from_disk tid disk = none := by
  have := List.find?_some h
  simpa [Option.isNone_iff_eq_none] using this

theorem run_etl_task_started_inv (step params : String)
    (cands : List String) (now : Nat) (s : SysState) (tid : String)
    (s1 : SysState)
    (h : run_etl_task step params cands now s = some (.started tid s1)) :
    pickFresh cands s.disk = some tid ∧
    s1 = persist tid (create_task_record tid step params now) now s := by
  unfold run_etl_task at h
  by_cases hcap : MAX_CONCURRENT_TASKS ≤ get_running_tasks_count s.disk
  · rw [if_pos hcap] at h
    simp at h
  · rw [if_neg hcap] at h
    cases hpf : pickFresh cands s.disk with
    | none => rw [hpf] at h; simp at h
    | some t0 =>
        rw [hpf] at h
        simp at h
        obtain ⟨h1, h2⟩ := h
        subst h1
        exact ⟨rfl, h2.symm⟩

theorem run_etl_task_capacity_inv (step params : String)
    (cands : List String) (now : Nat) (s : SysState) (s1 : SysState)
    (h : run_etl_task step params cands now s =
      some (.capacityExceeded s1)) : s1 = s := by
  unfold run_etl_task at h
  by_cases hcap : MAX_CONCURRENT_TASKS ≤ get_running_tasks_count s.disk
  · rw [if_pos hcap] at h
    simp at h
    exact h.symm
  · rw [if_neg hcap] at h
    cases hpf : pickFresh cands s.disk <;> rw [hpf] at h <;> simp at h

theorem isKey_persist_mono (i tid : String) (r : TaskRecord) (now : Nat)
    (s : SysState) (h : isKey i s.disk = true) :
    isKey i (persist tid r now s).disk = true := by
  by_cases he : i = tid
  · subst he
    simp [isKey, persist, load_save]
  · rw [isKey, persist]
    show (load_task_from_disk i
      (save_task_to_disk tid r now s.disk)).isSome = true
    rw [load_save_other i tid r now s.disk he]
    exact h

theorem submitMany_spec
    (reqs : List (String × String × List String × Nat)) (s : SysState) :
    List.Pairwise (fun a b => a ≠ b) (submitMany reqs s).1 ∧
    (∀ i ∈ (submitMany reqs s).1, isKey i s.disk = false) ∧
    (∀ i, isKey i s.disk = true →
       isKey i (submitMany reqs s).2.disk = true) := by
  induction reqs generalizing s with
  | nil => simp [submitMany]
  | cons req rest ih =>
      obtain ⟨step, params, cands, now⟩ := req
      cases hrun : run_etl_task step params cands now s with
      | none =>
          simp only [submitMany, hrun]
          exact ih s
      | some outcome =>
          cases outcome with
          | capacityExceeded s1 =>
              have hs1 : s1 = s :=
                run_etl_task_capacity_inv step params cands now s s1 hrun
              subst hs1
              simp only [submitMany, hrun]
              exact ih s1
          | started tid s1 =>
              obtain ⟨hpf, hs1⟩ :=
                run_etl_task_started_inv step params cands now s tid s1
                  hrun
              have hfresh : isKey tid s.disk = false := by
                simp [isKey, pickFresh_load_none cands s.disk tid hpf]
              have hkey1 : isKey tid s1.disk = true := by
                rw [hs1]
                simp [isKey, persist, load_save]
              have hmono : ∀ i, isKey i s.disk = true →
                  isKey i s1.disk = true := by
                intro i hi
                rw [hs1]
                exact isKey_persist_mono i tid _ now s hi
              obtain ⟨ihp, ihfresh, ihmono⟩ := ih s1
              simp only [submitMany, hrun]
              refine ⟨?_, ?_, ?_⟩
              · rw [List.pairwise_cons]
                refine ⟨?_, ihp⟩
                intro j hj heq
                have hjf := ihfresh j hj
                rw [← heq] at hjf
                rw [hkey1] at hjf
                exact absurd hjf (by decide)
              · intro i hi
                rcases List.mem_cons.mp hi with rfl | hmem
                · exact hfresh
                · cases hB : isKey i s.disk
                  · rfl
                  · exact absurd (ihfresh i hmem)
                      (by simp [hmono i hB])
              · intro i hi
                exact ihmono i (hmono i hi)

/-- Claim C7: a freshly generated id colliding with an existing record
is never used — a started submission's id names no pre-existing file
and its record is persisted under it — and over any sequence of
submissions the ids handed out are pairwise distinct and distinct from
every id already in the store at the start. -/
theorem submit_task_ids_distinct
    (reqs : List (String × String × List String × Nat)) (s : SysState) :
    (∀ step params cands now tid s1,
       run_etl_task step params cands now s = some (.started tid s1) →
       load_task_from_disk tid s.disk = none ∧
       load_task_from_disk tid s1.disk =
         some (create_task_record tid step params now)) ∧
    List.Pairwise (fun a b => a ≠ b) (submitMany reqs s).1 ∧
    (∀ i ∈ (submitMany reqs s).1,
       load_task_from_disk i s.disk = none) := by
  refine ⟨?_, (submitMany_spec reqs s).1, ?_⟩
  · intro step params cands now tid s1 h
    obtain ⟨hpf, hs1⟩ :=
      run_etl_task_started_inv step params cands now s tid s1 h
    refine ⟨pickFresh_load_none cands s.disk tid hpf, ?_⟩
    rw [hs1]
    simp [persist, load_save]
  · intro i hi
    have hki := (submitMany_spec reqs s).2.1 i hi
    cases hload : load_task_from_disk i s.disk with
    | none => rfl
    | some t =>
        simp [isKey, hload] at hki

/-- Two submissions, the second of which first draws the id already
taken by the first and must retry with its next candidate. -/
def reqs0 : List (String × String × List String × Nat) :=
  [("extract", "p", ["a"], 0), ("transform", "q", ["a", "b"], 1)]

/-- Witness for C7: from an empty store the two submissions yield ids a
then b — the colliding draw a was rejected — and they are pairwise
distinct. -/
theorem submit_task_ids_distinct_witness :
    (submitMany reqs0 ⟨[], []⟩).1 = ["a", "b"] ∧
    List.Pairwise (fun a b => a ≠ b) (submitMany reqs0 ⟨[], []⟩).1 :=
  ⟨rfl, (submit_task_ids_distinct reqs0 ⟨[], []⟩).2.1⟩
